import Mathlib

/- Shallow embedding of `src/main.rs`, a Square catalog pricing tool with two
commands (`ListZeroMargin`, `ApplyPriceTargets`), a cursor-paginated catalog
fetch, a fixed-point pricing engine and a chunked tax-rate resolution step.

`rust_decimal::Decimal` values are modelled by exact rationals (`ℚ`) with every
rounding step of the source made explicit:
- `round_dp(n)` is banker's rounding (`MidpointNearestEven`), here `roundDp`;
- `round_dp_with_strategy(n, RoundingStrategy::ToZero)` and
  `trunc_with_scale(n)` truncate toward zero, here `truncScale`;
- `Decimal::to_i64` truncates the fractional part and fails outside the `i64`
  range, here `toI64` on `ℤ` with explicit `i64` bounds.
Machine integers (`i64` money amounts) are modelled as `ℤ`, with the `i64`
semantics made explicit where the source can overflow: the guarded
`Decimal::to_i64` conversion (`toI64`'s range check), and the `i64` snap
arithmetic in `round_to_retail` (`pennies.abs()` and
`pennies += sign * (target - last_digit)`), which within 3 of the `i64`
boundaries wraps around in a release build (`wrap64` below models the
two's-complement wrap; a debug build would panic at the same inputs, and
either way the computation leaves the claimed behavior). -/

namespace Sps

attribute [local semireducible] Rat.inv Rat.mul Rat.add Rat.sub

/-- Floor of a rational as an integer, computed from the normalised
numerator/denominator (`Int.fdiv` is floor division). -/
def floorQ (q : ℚ) : ℤ := q.num.fdiv (q.den : ℤ)

/-- Truncation of a rational toward zero (`Int.tdiv` is T-division). This is
`rust_decimal`'s `RoundingStrategy::ToZero` at scale 0, and `Decimal::to_i64`'s
treatment of fractional digits. -/
def truncQ (q : ℚ) : ℤ := q.num.tdiv (q.den : ℤ)

/-- Round a rational to the nearest integer, ties to even: `rust_decimal`'s
default `MidpointNearestEven` strategy used by `round_dp`. -/
def roundHalfEven (q : ℚ) : ℤ :=
  if q - (floorQ q : ℚ) < 1 / 2 then floorQ q
  else if 1 / 2 < q - (floorQ q : ℚ) then floorQ q + 1
  else if floorQ q % 2 = 0 then floorQ q else floorQ q + 1

/-- Truncation toward zero at `n` fractional digits: the source's
`trunc_with_scale(n)` and `round_dp_with_strategy(n, ToZero)`. -/
def truncScale (n : ℕ) (q : ℚ) : ℚ := (truncQ (q * 10 ^ n) : ℚ) / 10 ^ n

/-- Banker's rounding at `n` fractional digits: the source's `round_dp(n)`. -/
def roundDp (n : ℕ) (q : ℚ) : ℚ := (roundHalfEven (q * 10 ^ n) : ℚ) / 10 ^ n

/-- `Decimal::to_i64`: truncate the fractional part, `none` outside the `i64`
range. -/
def toI64 (q : ℚ) : Option ℤ :=
  if truncQ q < -(2 ^ 63) ∨ 2 ^ 63 - 1 < truncQ q then none else some (truncQ q)

/-- `struct Money { amount: i64, currency: String }`. -/
structure Money where
  amount : ℤ
  currency : String
deriving DecidableEq, Repr

/-- `struct ItemVariationData` (the fields consumed by the tool). -/
structure ItemVariationData where
  name : String
  item_id : String
  pricing_type : String
  price_money : Option Money
  default_unit_cost : Option Money
deriving DecidableEq, Repr

/-- `struct ItemVariation`. -/
structure ItemVariation where
  id : String
  version : ℤ
  is_deleted : Bool
  data : ItemVariationData
deriving DecidableEq, Repr

/-- `struct UpdateItemVariationData { price_money: Money }`. -/
structure UpdateItemVariationData where
  price_money : Money
deriving DecidableEq, Repr

/-- `struct UpdateItemVariation { kind, id, data }`. -/
structure UpdateItemVariation where
  kind : String
  id : String
  data : UpdateItemVariationData
deriving DecidableEq, Repr

/-- `struct PriceData { rrp, unit, tax_rate: Decimal }`. -/
structure PriceData where
  rrp : ℚ
  unit : ℚ
  tax_rate : ℚ
deriving DecidableEq, Repr

/-- `ItemVariation::price_data`: minor-unit amounts divided by 100 and
truncated to 2 fractional digits; `none` when either money field is absent
(the source's `?` on `price_money` then `default_unit_cost`). -/
def ItemVariation.price_data (v : ItemVariation) (tax_rate : ℚ) :
    Option PriceData :=
  match v.data.price_money, v.data.default_unit_cost with
  | some pm, some uc =>
      some { rrp := truncScale 2 ((pm.amount : ℚ) / 100)
             unit := truncScale 2 ((uc.amount : ℚ) / 100)
             tax_rate := tax_rate }
  | _, _ => none

/-- `PriceData::vat`. -/
def PriceData.vat (p : PriceData) : ℚ :=
  roundDp 2 (p.rrp - p.rrp / (p.tax_rate + 1))

/-- `PriceData::net`. -/
def PriceData.net (p : PriceData) : ℚ := roundDp 2 (p.rrp - p.vat)

/-- `PriceData::profit`. -/
def PriceData.profit (p : PriceData) : ℚ := p.net - p.unit

/-- `PriceData::por` (margin on retail). In the source a zero `net` would make
`Decimal` division panic; in `ℚ` division by zero yields 0 (unreachable for
the amounts the pipeline admits, which are positive). -/
def PriceData.por (p : PriceData) : ℚ := roundDp 2 (p.profit / p.net)

/-- `PriceData::set_por`: `net = unit / (1 - por)`;
`gross = net.round_dp_with_strategy(2, ToZero) * (tax_rate + 1)`;
`rrp = gross.round_dp_with_strategy(2, ToZero)`. -/
def PriceData.set_por (p : PriceData) (por : ℚ) : PriceData :=
  { p with
    rrp := truncScale 2 (truncScale 2 (p.unit / (1 - por)) * (p.tax_rate + 1)) }

/-- Two's-complement wrap-around into the `i64` range
`[-2^63, 2^63 - 1]`: the effect of an overflowing `i64` operation in a
release build. -/
def wrap64 (n : ℤ) : ℤ := (n + 2 ^ 63) % 2 ^ 64 - 2 ^ 63

/-- `i64::abs` in a release build: the true absolute value except at
`i64::MIN`, whose negation overflows and wraps back to `i64::MIN` itself. -/
def abs64 (n : ℤ) : ℤ := wrap64 (n.natAbs : ℤ)

/-- The snap rule on the last digit (an `i64` in the source, negative when
`pennies.abs()` wrapped at `i64::MIN`): `<= 2 → 0`, `<= 5 → 5`, else `9`. -/
def snapDigit (d : ℤ) : ℤ := if d ≤ 2 then 0 else if d ≤ 5 then 5 else 9

/-- The body of `PriceData::round_to_retail` on the `i64` penny amount:
`last_digit = pennies.abs() % 10` (Rust `%` truncates toward zero, hence
`Int.tmod`) and `pennies += sign * (target - last_digit)`, both on `i64`,
so both wrap on overflow. -/
def snapPennies (n : ℤ) : ℤ :=
  wrap64 (n + (if n < 0 then -1 else 1) *
    (snapDigit (Int.tmod (abs64 n) 10) - Int.tmod (abs64 n) 10))

/-- The snap without the `i64` wrap-around: what
`pennies += sign * (target - last_digit)` computes whenever the arithmetic
stays inside the `i64` range. Agreement with `snapPennies` is proved below
for penny amounts at least 3 away from the `i64` boundaries. -/
def snapPenniesPure (n : ℤ) : ℤ :=
  n + (if n < 0 then -1 else 1) *
    (snapDigit ((n.natAbs % 10 : ℕ) : ℤ) - ((n.natAbs % 10 : ℕ) : ℤ))

/-- `PriceData::round_to_retail`: `pennies = (rrp * 100).round_dp(0)`; if
`to_i64` fails return with `rrp` unchanged; otherwise snap the last digit and
set `rrp = Decimal::new(pennies, 2)` (= pennies / 100). -/
def PriceData.round_to_retail (p : PriceData) : PriceData :=
  match toI64 ((roundHalfEven (p.rrp * 100) : ℤ) : ℚ) with
  | none => p
  | some pennies => { p with rrp := (snapPennies pennies : ℚ) / 100 }

/-- The `ListZeroMargin` per-variant row: bind `default_unit_cost` then
`price_money` (the source's two `?`s), skip when `price > unit`, else emit the
CSV row `item_id,id,name,unit,price`. -/
def zeroMarginRow (v : ItemVariation) : Option String :=
  match v.data.default_unit_cost, v.data.price_money with
  | some u, some p =>
      if u.amount < p.amount then none
      else
        some (v.data.item_id ++ "," ++ v.id ++ "," ++ v.data.name ++ "," ++
          toString u.amount ++ "," ++ toString p.amount)
  | _, _ => none

/-- The `ListZeroMargin` command body: drop deleted variants, then
`filter_map` each remaining variant to its CSV row (the printed report is
these rows joined by newlines under a fixed header). -/
def listZeroMargin (vs : List ItemVariation) : List String :=
  (vs.filter (fun v => !v.is_deleted)).filterMap zeroMarginRow

/-- First `ApplyPriceTargets` eligibility filter:
`default_unit_cost.is_some_and(|n| n.amount > 0)`. -/
def costFilter (v : ItemVariation) : Bool :=
  match v.data.default_unit_cost with
  | some n => decide (0 < n.amount)
  | none => false

/-- Second `ApplyPriceTargets` eligibility filter:
`price_money.is_some_and(|n| n.amount > 0 && n.amount != default_unit_cost.unwrap().amount)`.
The `unwrap` cannot fail in the pipeline because `costFilter` has already
required `default_unit_cost` to be present. -/
def priceFilter (v : ItemVariation) : Bool :=
  match v.data.price_money, v.data.default_unit_cost with
  | some n, some u => decide (0 < n.amount) && decide (n.amount ≠ u.amount)
  | _, _ => false

/-- The filtered `variations` list of `ApplyPriceTargets`: not deleted, then
positive unit cost, then positive price different from the unit cost. -/
def eligibleList (vs : List ItemVariation) : List ItemVariation :=
  ((vs.filter (fun v => !v.is_deleted)).filter costFilter).filter priceFilter

/-- The fixed enumeration of known tax categories (the `match` on the
tax-category id). `none` models the `_ => unreachable!()` arm: an unknown
category has no rate and panics the run. -/
def taxRateOf (cat : String) : Option ℚ :=
  if cat = "2CJE55HCPJY5LHB4ZUEDCRJF" then some 0
  else if cat = "3TXZ4AJ4DUCSI6YDBKXHBLRQ" then some (5 / 100)
  else if cat = "QDKOK36EMFC7772L2V64U6YD" then some (20 / 100)
  else none

/-- The per-variant pricing step of `ApplyPriceTargets` once a tax rate is
resolved: skip (`None`) when a money field is missing, when the current POR is
already `>= 0.4`, or when the final `to_i64` fails; otherwise produce
`(original.por(), new.por(), UpdateItemVariation)` with the new amount
`(rrp * 100).round_dp(2).to_i64()` and the hard-coded currency `"GBP"`. -/
def priceUpdateAtRate (rate : ℚ) (v : ItemVariation) :
    Option (ℚ × ℚ × UpdateItemVariation) :=
  match v.price_data rate with
  | none => none
  | some price =>
      if (2 : ℚ) / 5 ≤ price.por then none
      else
        match toI64 (roundDp 2 (((price.set_por (2 / 5)).round_to_retail).rrp * 100)) with
        | none => none
        | some amt =>
            some (price.por, ((price.set_por (2 / 5)).round_to_retail).por,
              { kind := "ITEM_VARIATION", id := v.id,
                data := { price_money := { amount := amt, currency := "GBP" } } })

/-- The whole `filter_map` closure of `ApplyPriceTargets` for one variant:
`item_tax_map.get(&item_id)?` (absent item skips the variant), then the tax
category `match` (`Except.error ()` models the `unreachable!()` panic aborting
the run), then the pricing step. -/
def variantUpdate (taxMap : String → Option String) (v : ItemVariation) :
    Except Unit (Option (ℚ × ℚ × UpdateItemVariation)) :=
  match taxMap v.data.item_id with
  | none => .ok none
  | some cat =>
      match taxRateOf cat with
      | none => .error ()
      | some rate => .ok (priceUpdateAtRate rate v)

/-- Equality of `Except` values is decidable when it is for both
components (used only to evaluate concrete run outcomes). -/
instance {ε α : Type} [DecidableEq ε] [DecidableEq α] : DecidableEq (Except ε α) :=
  fun a b =>
    match a, b with
    | .error x, .error y =>
        if h : x = y then .isTrue (by rw [h]) else .isFalse (by intro hc; cases hc; exact h rfl)
    | .error _, .ok _ => .isFalse (by intro hc; cases hc)
    | .ok _, .error _ => .isFalse (by intro hc; cases hc)
    | .ok x, .ok y =>
        if h : x = y then .isTrue (by rw [h]) else .isFalse (by intro hc; cases hc; exact h rfl)

/-- `Iterator::filter_map(...).collect()` over a closure that can panic:
elements are processed left to right, a panic (`Except.error`) aborts the
whole run. -/
def exceptFilterMap {α β : Type} (f : α → Except Unit (Option β)) :
    List α → Except Unit (List β)
  | [] => .ok []
  | a :: as =>
      match f a with
      | .error e => .error e
      | .ok none => exceptFilterMap f as
      | .ok (some b) =>
          match exceptFilterMap f as with
          | .error e => .error e
          | .ok bs => .ok (b :: bs)

/-- The update-construction stage of `ApplyPriceTargets` (lines 100-134):
the eligible variants are mapped through `variantUpdate` with the resolved
`item_tax_map`; an unknown tax category aborts everything. -/
def applyPriceTargets (taxMap : String → Option String)
    (vs : List ItemVariation) : Except Unit (List (ℚ × ℚ × UpdateItemVariation)) :=
  exceptFilterMap (variantUpdate taxMap) (eligibleList vs)

/-- The merged item-to-tax-category mapping, as a lookup function
(`HashMap<String, String>`). -/
def TaxMap : Type := String → Option String

/-- `HashMap::extend`: entries of `val` overwrite entries of `acc`. -/
def extendMap (acc val : TaxMap) : TaxMap :=
  fun k => match val k with
  | some tax => some tax
  | none => acc k

/-- The tax-map merge of `ApplyPriceTargets` (lines 86-98): each 1000-variant
chunk yields a `Result<HashMap<_, _>>` from `get_item_taxes`;
`join_all(...).into_iter().flatten()` keeps the `Ok` maps (dropping every
`Err`), `reduce(extend)` merges them, and the final `unwrap` panics (`none`)
exactly when `reduce` sees an empty iterator. -/
def resolveTaxMap (chunkResults : List (Except Unit TaxMap)) : Option TaxMap :=
  match chunkResults.filterMap Except.toOption with
  | [] => none
  | m :: ms => some (ms.foldl extendMap m)

/-- The outcome of one page request inside `get_item_variations`:
`ok` is a 2xx response with its parsed `objects` and optional `cursor`;
`httpErr` is `error_for_status()` returning `Err` (logged with `eprintln!`);
`sendErr` is a failure of `send()` itself, propagated by `?`. -/
inductive PageResponse where
  | ok (objects : List ItemVariation) (cursor : Option String)
  | httpErr
  | sendErr
deriving DecidableEq

/-- The observable outcome of `get_item_variations` after a bounded number of
loop iterations: `ok` is `Ok(result)`, `err` is an `Err` propagated by `?`,
and `fuelOut` means the `while` loop was still running after the given number
of iterations. -/
inductive FetchResult where
  | ok (vs : List ItemVariation)
  | err
  | fuelOut
deriving DecidableEq

/-- The `while let Some(current_cursor) = cursor` loop of
`get_item_variations`, indexed by the remaining iteration budget `fuel` and
the request number `i` (the oracle maps request number and cursor to the
remote's response). On `ok`, `objects` are appended and the cursor is
replaced by the response's cursor; on `httpErr` the error is only logged, so
the cursor is left unchanged; on `sendErr` the whole function returns `Err`. -/
def fetchLoop (oracle : ℕ → String → PageResponse) :
    ℕ → ℕ → Option String → List ItemVariation → FetchResult
  | _, _, none, acc => .ok acc
  | 0, _, some _, _ => .fuelOut
  | fuel + 1, i, some c, acc =>
      match oracle i c with
      | .ok objs cur => fetchLoop oracle fuel (i + 1) cur (acc ++ objs)
      | .httpErr => fetchLoop oracle fuel (i + 1) (some c) acc
      | .sendErr => .err

/-- `get_item_variations`: the pagination loop started with
`cursor = Some(String::new())` and an empty accumulator. -/
def get_item_variations (oracle : ℕ → String → PageResponse) (fuel : ℕ) :
    FetchResult :=
  fetchLoop oracle fuel 0 (some "") []

/-- Modelled from the spec: the target-margin solve as §4.4 words it —
`Net' = unitCost / (1 - targetPOR)`;
`Gross' = truncate(Net', 2) * (1 + taxRate)`;
`new retailPrice = truncate(Gross', 2)`, truncating toward zero at each
intermediate step in that order. Stated only to be compared against the
source's `PriceData.set_por`. -/
def setMarginSpec (unitCost taxRate targetPOR : ℚ) : ℚ :=
  truncScale 2 (truncScale 2 (unitCost / (1 - targetPOR)) * (1 + taxRate))

/-- The full per-variant pricing chain of `ApplyPriceTargets` in minor units:
minor-unit conversion (`price_data`), then `set_por`, then `round_to_retail`,
then the write-back conversion `(rrp * 100).round_dp(2).to_i64()`. -/
def pipelinePennies (v : ItemVariation) (tax target : ℚ) : Option ℤ :=
  (v.price_data tax).bind
    (fun p => toI64 (roundDp 2 ((((p.set_por target).round_to_retail).rrp) * 100)))

/- Concrete fixtures used by the theorems below. -/

/-- A variant priced at 135 pennies with unit cost 86 pennies (the worked
example's inputs, with the unit cost read as 86 minor units). -/
def vC2a : ItemVariation :=
  ⟨"VC2", 1, false, ⟨"Ex", "IC2", "FIXED_PRICING", some ⟨135, "GBP"⟩, some ⟨86, "GBP"⟩⟩⟩

/-- The same variant with unit cost 8600 minor units (decimal 86.00). -/
def vC2b : ItemVariation :=
  ⟨"VC2b", 1, false, ⟨"Ex", "IC2b", "FIXED_PRICING", some ⟨135, "GBP"⟩, some ⟨8600, "GBP"⟩⟩⟩

/-- A variant with price 50 and unit cost 80 minor units (price below cost). -/
def v50 : ItemVariation :=
  ⟨"V50", 1, false, ⟨"Widget", "I50", "FIXED_PRICING", some ⟨50, "GBP"⟩, some ⟨80, "GBP"⟩⟩⟩

/-- A tax map resolving `v50`'s parent item to the known 20% category. -/
def tm50 : String → Option String :=
  fun i => if i = "I50" then some "QDKOK36EMFC7772L2V64U6YD" else none

/-- A variant whose original `price_money` currency is `"USD"`. -/
def vUSD : ItemVariation :=
  ⟨"VUSD", 1, false, ⟨"Import", "IUSD", "FIXED_PRICING", some ⟨100, "USD"⟩, some ⟨60, "USD"⟩⟩⟩

/-- A tax map resolving `vUSD`'s parent item to an unknown tax category. -/
def tmU : String → Option String :=
  fun i => if i = "IUSD" then some "UNKNOWN" else none

/-- A variant whose current margin on retail is already above the target
(price 100, unit cost 10, POR 0.88 at the 20% rate). -/
def vHigh : ItemVariation :=
  ⟨"VH", 1, false, ⟨"High", "IH", "FIXED_PRICING", some ⟨100, "GBP"⟩, some ⟨10, "GBP"⟩⟩⟩

/-- `vHigh.price_data (1/5)`, written out. -/
def pdHigh : PriceData := ⟨1, 1 / 10, 1 / 5⟩

/-- A deleted variant (tombstone flag set). -/
def vDel : ItemVariation :=
  ⟨"VDEL", 1, true, ⟨"Gone", "IDEL", "FIXED_PRICING", some ⟨50, "GBP"⟩, some ⟨80, "GBP"⟩⟩⟩

/-- A tax map with no entries. -/
def tmNone : String → Option String := fun _ => none

/-- A single-entry merged tax map, as one chunk would produce it. -/
def mOne : TaxMap := fun k => if k = "I1" then some "2CJE55HCPJY5LHB4ZUEDCRJF" else none

/-- A price two pennies below `i64::MAX` when expressed in minor units
(reachable from the `i64` amount 9223372036854775806): its last penny digit
6 snaps up by 3, overflowing `i64`. -/
def pBig : PriceData := ⟨9223372036854775806 / 100, 0, 0⟩

/-- A small price (159 pennies) far from the `i64` boundaries. -/
def pSnap : PriceData := ⟨159 / 100, 4 / 5, 1 / 5⟩

/-- A page oracle for the fetch loop: the first (empty-cursor) request
succeeds with one object and continuation cursor `"A"`, and every request at
cursor `"A"` fails with an HTTP error status (the client's retries
exhausted). -/
def oracleStuck : ℕ → String → PageResponse :=
  fun _ c => if c = "" then .ok [vC2a] (some "A") else .httpErr

/- Theorems. -/

/-- At cursor `"A"` the stuck oracle makes the loop spin forever: the error
branch of the `match` logs but neither advances nor clears the cursor. -/
theorem fetchLoop_oracleStuck (fuel : ℕ) :
    ∀ (i : ℕ) (acc : List ItemVariation),
      fetchLoop oracleStuck fuel i (some "A") acc = FetchResult.fuelOut := by
  induction fuel with
  | zero => intro i acc; rfl
  | succ n ih =>
      intro i acc
      have h : fetchLoop oracleStuck (n + 1) i (some "A") acc
          = fetchLoop oracleStuck n (i + 1) (some "A") acc := rfl
      rw [h]
      exact ih (i + 1) acc

/-- C1: the claim says that when a single page request fails after the
client's retries, `get_item_variations` logs the error, terminates the
pagination loop early and returns the pages accumulated so far. The code
does not: the `Err` arm of the `match` only logs, leaving `cursor`
unchanged, so the loop re-issues the same page request forever. Against an
oracle whose second page persistently fails, no iteration budget ever makes
the fetch return - the loop never terminates, so no partial result is ever
produced. -/
theorem C1_page_failure_never_returns (fuel : ℕ) :
    get_item_variations oracleStuck fuel = FetchResult.fuelOut := by
  cases fuel with
  | zero => rfl
  | succ n =>
      have h : get_item_variations oracleStuck (n + 1)
          = fetchLoop oracleStuck n 1 (some "A") [vC2a] := rfl
      rw [h]
      exact fetchLoop_oracleStuck n 1 [vC2a]

/-- C2 counterexample: with unit cost 86 pennies (as the claim states the
input), tax rate 0.20 and target POR 0.40, the pipeline produces 170
pennies (1.70), not 17199. -/
theorem C2_counterexample :
    pipelinePennies vC2a (1 / 5) (2 / 5) = some 170 ∧ (170 : ℤ) ≠ 17199 := by
  decide

/-- C2 amended: the worked example's numbers hold for the unit cost whose
decimal value is 86.00, i.e. 8600 minor units: the pipeline yields 17199
pennies (171.99). -/
theorem C2_amended_example :
    pipelinePennies vC2b (1 / 5) (2 / 5) = some 17199 := by
  decide

/-- C6: `set_por` computes the new retail price exactly as the spec words
it - `Net' = unitCost / (1 - targetPOR)`, `Gross' = truncate(Net', 2) *
(1 + taxRate)`, `new retailPrice = truncate(Gross', 2)` - truncating toward
zero at each intermediate step, and leaves `unit` and `tax_rate`
unchanged. -/
theorem C6_set_por_follows_spec (p : PriceData) (target : ℚ) :
    p.set_por target = ⟨setMarginSpec p.unit p.tax_rate target, p.unit, p.tax_rate⟩ := by
  cases p with
  | mk r u t =>
      show PriceData.mk (truncScale 2 (truncScale 2 (u / (1 - target)) * (t + 1))) u t = _
      rw [add_comm t 1]
      rfl

/-- C7: a variant whose current margin on retail is at or above the 0.40
target is given no update (the `filter_map` closure returns `None` before
building one), and conversely a produced update forces the POR to have been
strictly below 0.40. -/
theorem C7_por_at_target_untouched (rate : ℚ) (v : ItemVariation)
    (pd : PriceData) (h : v.price_data rate = some pd) :
    ((2 : ℚ) / 5 ≤ pd.por → priceUpdateAtRate rate v = none) ∧
    (priceUpdateAtRate rate v ≠ none → pd.por < 2 / 5) := by
  have key : (2 : ℚ) / 5 ≤ pd.por → priceUpdateAtRate rate v = none := by
    intro hpor
    unfold priceUpdateAtRate
    rw [h]
    simp [if_pos hpor]
  refine ⟨key, fun hne => ?_⟩
  by_contra hlt
  exact hne (key (le_of_not_lt hlt))

/-- C7 witness: `vHigh` has POR 0.88 at the 20% rate and receives no
update. -/
theorem C7_witness :
    (vHigh.price_data (1 / 5) = some pdHigh ∧ (2 : ℚ) / 5 ≤ pdHigh.por) ∧
    priceUpdateAtRate (1 / 5) vHigh = none :=
  ⟨⟨by decide, by decide⟩,
    (C7_por_at_target_untouched (1 / 5) vHigh pdHigh (by decide)).1 (by decide)⟩

/-- Truncation of an integer-valued rational is the integer itself. -/
theorem truncQ_intCast (k : ℤ) : truncQ (k : ℚ) = k := by
  unfold truncQ
  rw [Rat.num_intCast, Rat.den_intCast]
  exact Int.tdiv_one k

/-- The floor of an integer-valued rational is the integer itself. -/
theorem floorQ_intCast (k : ℤ) : floorQ (k : ℚ) = k := by
  unfold floorQ
  rw [Rat.num_intCast, Rat.den_intCast]
  exact Int.fdiv_one k

/-- Banker's rounding of an integer-valued rational. -/
theorem roundHalfEven_intCast (k : ℤ) : roundHalfEven (k : ℚ) = k := by
  unfold roundHalfEven
  rw [floorQ_intCast, sub_self]
  norm_num

/-- `to_i64` of an integer-valued rational: the range check alone. -/
theorem toI64_intCast (k : ℤ) :
    toI64 (k : ℚ)
      = if k < -(2 ^ 63) ∨ 2 ^ 63 - 1 < k then none else some k := by
  unfold toI64
  rw [truncQ_intCast]

/-- `wrap64` is the identity on values already inside the `i64` range. -/
theorem wrap64_eq_of_range (n : ℤ) (h1 : -(2 ^ 63) ≤ n) (h2 : n ≤ 2 ^ 63 - 1) :
    wrap64 n = n := by
  unfold wrap64
  omega

/-- Away from `i64::MIN`, the release-mode `abs` is the true absolute
value. -/
theorem abs64_eq_natAbs (n : ℤ) (h1 : -(2 ^ 63) < n) (h2 : n ≤ 2 ^ 63 - 1) :
    abs64 n = (n.natAbs : ℤ) := by
  unfold abs64
  exact wrap64_eq_of_range _ (by omega) (by omega)

/-- Rust's `%` on a nonnegative `i64` agrees with the natural-number
remainder. -/
theorem tmod_natAbs_ten (n : ℤ) :
    Int.tmod ((n.natAbs : ℤ)) 10 = ((n.natAbs % 10 : ℕ) : ℤ) := rfl

/-- At least 3 away from the `i64` boundaries, the snap arithmetic does not
overflow: `snapPennies` agrees with the wrap-free `snapPenniesPure`. -/
theorem snapPennies_eq_pure (n : ℤ) (h1 : -(2 ^ 63) + 3 ≤ n)
    (h2 : n ≤ 2 ^ 63 - 4) : snapPennies n = snapPenniesPure n := by
  unfold snapPennies
  rw [abs64_eq_natAbs n (by omega) (by omega), tmod_natAbs_ten]
  unfold snapPenniesPure wrap64 snapDigit
  split_ifs <;> omega

/-- The wrap-free snap of an in-band amount stays inside the `i64` range,
away from `i64::MIN`, and ends in digit 0, 5 or 9. -/
theorem snapPenniesPure_digits (n : ℤ) (h1 : -(2 ^ 63) + 3 ≤ n)
    (h2 : n ≤ 2 ^ 63 - 4) :
    -(2 ^ 63) < snapPenniesPure n ∧ snapPenniesPure n ≤ 2 ^ 63 - 1 ∧
    ((snapPenniesPure n).natAbs % 10 = 0 ∨ (snapPenniesPure n).natAbs % 10 = 5 ∨
      (snapPenniesPure n).natAbs % 10 = 9) := by
  unfold snapPenniesPure snapDigit
  split_ifs <;> omega

/-- An in-range `i64` amount already ending in 0, 5 or 9 is a fixed point of
the snap. -/
theorem snapPennies_fixed (m : ℤ) (h1 : -(2 ^ 63) < m) (h2 : m ≤ 2 ^ 63 - 1)
    (hd : m.natAbs % 10 = 0 ∨ m.natAbs % 10 = 5 ∨ m.natAbs % 10 = 9) :
    snapPennies m = m := by
  unfold snapPennies
  rw [abs64_eq_natAbs m h1 h2, tmod_natAbs_ten]
  unfold wrap64 snapDigit
  split_ifs <;> omega

/-- Iterating the snap in the overflow-free band changes nothing the second
time. -/
theorem snapPennies_idem_of_range (n : ℤ) (h1 : -(2 ^ 63) + 3 ≤ n)
    (h2 : n ≤ 2 ^ 63 - 4) : snapPennies (snapPennies n) = snapPennies n := by
  rw [snapPennies_eq_pure n h1 h2]
  obtain ⟨hb1, hb2, hd⟩ := snapPenniesPure_digits n h1 h2
  exact snapPennies_fixed _ hb1 hb2 hd

/-- C9 counterexample: `round_to_retail` is not idempotent on every price
value. At the price of 9223372036854775806 pennies (two below `i64::MAX`,
reachable from an `i64` money amount), the last digit 6 snaps up by 3 and
the `i64` addition overflows: one application wraps to -9223372036854775807
pennies, and the second application's snap (digit 7, adjusted by -2)
overflows again to +9223372036854775807 pennies, a different value (a debug
build panics instead at the same inputs - either way not the same result
twice). -/
theorem C9_counterexample :
    pBig.round_to_retail = { pBig with rrp := -9223372036854775807 / 100 } ∧
    pBig.round_to_retail.round_to_retail
      = { pBig with rrp := 9223372036854775807 / 100 } ∧
    pBig.round_to_retail.round_to_retail ≠ pBig.round_to_retail := by
  decide

/-- C9 amended: `round_to_retail` is idempotent for every price whose
rounded penny amount either lies outside the `i64` range (`to_i64` fails
and the price is returned unchanged) or is at least 3 away from the `i64`
boundaries, so that the last-digit snap cannot overflow; only in the
overflow band within 3 of `i64::MIN`/`i64::MAX` does the wrap (release; a
panic in debug) break idempotence. -/
theorem C9_amended_round_idem (p : PriceData)
    (h : roundHalfEven (p.rrp * 100) < -(2 ^ 63) ∨
      2 ^ 63 - 1 < roundHalfEven (p.rrp * 100) ∨
      (-(2 ^ 63) + 3 ≤ roundHalfEven (p.rrp * 100) ∧
        roundHalfEven (p.rrp * 100) ≤ 2 ^ 63 - 4)) :
    p.round_to_retail.round_to_retail = p.round_to_retail := by
  rcases h with h | h | ⟨h1, h2⟩
  · have e0 : toI64 ((roundHalfEven (p.rrp * 100) : ℤ) : ℚ) = none := by
      rw [toI64_intCast]
      exact if_pos (Or.inl h)
    have e1 : p.round_to_retail = p := by
      unfold PriceData.round_to_retail
      rw [e0]
    rw [e1, e1]
  · have e0 : toI64 ((roundHalfEven (p.rrp * 100) : ℤ) : ℚ) = none := by
      rw [toI64_intCast]
      exact if_pos (Or.inr h)
    have e1 : p.round_to_retail = p := by
      unfold PriceData.round_to_retail
      rw [e0]
    rw [e1, e1]
  · have e0 : toI64 ((roundHalfEven (p.rrp * 100) : ℤ) : ℚ)
        = some (roundHalfEven (p.rrp * 100)) := by
      rw [toI64_intCast]
      exact if_neg (by omega)
    have e1 : p.round_to_retail
        = { p with rrp := (snapPennies (roundHalfEven (p.rrp * 100)) : ℚ) / 100 } := by
      unfold PriceData.round_to_retail
      rw [e0]
    rw [e1]
    have hsp : snapPennies (roundHalfEven (p.rrp * 100))
        = snapPenniesPure (roundHalfEven (p.rrp * 100)) :=
      snapPennies_eq_pure _ h1 h2
    obtain ⟨hb1, hb2, hd⟩ := snapPenniesPure_digits (roundHalfEven (p.rrp * 100)) h1 h2
    have hr : (({ p with rrp := (snapPennies (roundHalfEven (p.rrp * 100)) : ℚ) / 100 }
          : PriceData).rrp * 100)
        = ((snapPennies (roundHalfEven (p.rrp * 100)) : ℤ) : ℚ) := by
      show (snapPennies (roundHalfEven (p.rrp * 100)) : ℚ) / 100 * 100 = _
      rw [div_mul_cancel₀]
      norm_num
    unfold PriceData.round_to_retail
    rw [hr, roundHalfEven_intCast, toI64_intCast]
    rw [if_neg (by rw [hsp]; omega)]
    show ({ p with rrp :=
        (snapPennies (snapPennies (roundHalfEven (p.rrp * 100))) : ℚ) / 100 }
      : PriceData) = _
    rw [snapPennies_idem_of_range _ h1 h2]

/-- C9 amended witness: at the 159-penny price (inside the overflow-free
band) applying `round_to_retail` twice equals applying it once. -/
theorem C9_amended_round_idem_witness :
    (-(2 ^ 63) + 3 ≤ roundHalfEven (pSnap.rrp * 100) ∧
      roundHalfEven (pSnap.rrp * 100) ≤ 2 ^ 63 - 4) ∧
    pSnap.round_to_retail.round_to_retail = pSnap.round_to_retail :=
  ⟨⟨by decide, by decide⟩,
    C9_amended_round_idem pSnap (Or.inr (Or.inr ⟨by decide, by decide⟩))⟩

/-- C3 counterexample: with two chunks, the first succeeding with map `mOne`
and the second failing, the resolution step does not fail - `flatten()` drops
the `Err`, `reduce` merges the surviving map, and pricing proceeds with the
partially merged mapping `mOne`. -/
theorem C3_counterexample :
    resolveTaxMap [Except.ok mOne, Except.error ()] = some mOne := rfl

/-- C3 amended: the tax-map merge fails (the `unwrap` on `reduce` panics)
only when every chunk fails; when at least one chunk succeeds, the failed
chunks are silently dropped and the step yields the fold of the successful
chunks' maps under `HashMap::extend`. -/
theorem C3_amended_merge (rs : List (Except Unit TaxMap)) :
    (resolveTaxMap rs = none ↔ ∀ r ∈ rs, Except.toOption r = none) ∧
    (∀ (m : TaxMap) (ms : List TaxMap),
      rs.filterMap Except.toOption = m :: ms →
      resolveTaxMap rs = some (ms.foldl extendMap m)) := by
  constructor
  · unfold resolveTaxMap
    rcases h : rs.filterMap Except.toOption with _ | ⟨m, ms⟩
    · simpa using List.filterMap_eq_nil_iff.mp h
    · simp only [reduceCtorEq, false_iff]
      intro hall
      rw [List.filterMap_eq_nil_iff.mpr hall] at h
      cases h
  · intro m ms h
    unfold resolveTaxMap
    rw [h]

/-- C3 amended witness: all chunks failing panics the step; one success
beside one failure yields that success's map. -/
theorem C3_amended_merge_witness :
    resolveTaxMap [Except.error (), Except.error ()] = none ∧
    resolveTaxMap [Except.ok mOne, Except.error ()] = some mOne :=
  ⟨(C3_amended_merge [Except.error (), Except.error ()]).1.mpr (by
      intro r hr
      simp only [List.mem_cons, List.not_mem_nil, or_false] at hr
      rcases hr with rfl | rfl <;> rfl),
    (C3_amended_merge [Except.ok mOne, Except.error ()]).2 mOne [] rfl⟩

/-- C4 counterexample: the variant with price 50 and unit cost 80 minor
units passes both eligibility filters (only `price == unit` and nonpositive
amounts are excluded), and `ApplyPriceTargets` does give it a price update
(its POR is negative, hence below target): the run produces an update to 159
pennies for it. -/
theorem C4_counterexample :
    v50.data.price_money = some ⟨50, "GBP"⟩ ∧
    v50.data.default_unit_cost = some ⟨80, "GBP"⟩ ∧
    costFilter v50 = true ∧ priceFilter v50 = true ∧
    applyPriceTargets tm50 [v50] =
      Except.ok [(-(9 / 10), 2 / 5,
        ⟨"ITEM_VARIATION", "V50", ⟨⟨159, "GBP"⟩⟩⟩)] :=
  ⟨rfl, rfl, rfl, by decide, by decide⟩

/-- C4 amended: a variant (with both money fields present) is excluded from
margin retargeting exactly when its unit cost is nonpositive, its price is
nonpositive, or its price equals its unit cost - a price merely below the
unit cost does not exclude it. The 50/80 variant therefore appears in the
`ListZeroMargin` listing (price ≤ cost) yet still receives a price update
from `ApplyPriceTargets`. -/
theorem C4_amended_eligibility :
    (∀ (v : ItemVariation) (u pm : Money),
      v.data.default_unit_cost = some u → v.data.price_money = some pm →
      ((costFilter v && priceFilter v) = false ↔
        (u.amount ≤ 0 ∨ pm.amount ≤ 0 ∨ pm.amount = u.amount))) ∧
    listZeroMargin [v50] = ["I50,V50,Widget,80,50"] ∧
    (applyPriceTargets tm50 [v50]).map List.length = Except.ok 1 := by
  refine ⟨?_, by decide, by decide⟩
  intro v u pm hu hp
  simp only [costFilter, priceFilter, hu, hp, Bool.and_eq_false_iff,
    decide_eq_false_iff_not, not_lt, decide_not, Bool.not_eq_false,
    decide_eq_true_eq, not_not, Bool.not_eq_false']

/-- C4 amended witness: the characterization applied to the 50/80 variant -
its filters do not reject it because 80 > 0, 50 > 0 and 50 ≠ 80. -/
theorem C4_amended_eligibility_witness :
    (v50.data.default_unit_cost = some ⟨80, "GBP"⟩ ∧
      v50.data.price_money = some ⟨50, "GBP"⟩) ∧
    ((costFilter v50 && priceFilter v50) = false ↔
      ((80 : ℤ) ≤ 0 ∨ (50 : ℤ) ≤ 0 ∨ (50 : ℤ) = 80)) :=
  ⟨⟨rfl, rfl⟩, C4_amended_eligibility.1 v50 ⟨80, "GBP"⟩ ⟨50, "GBP"⟩ rfl rfl⟩

/-- C5 counterexample: a variant whose original `price_money` currency is
`"USD"` is written back with currency `"GBP"` - the currency is hard-coded,
not carried through. -/
theorem C5_counterexample :
    vUSD.data.price_money = some ⟨100, "USD"⟩ ∧
    priceUpdateAtRate (1 / 5) vUSD =
      some (7 / 25, 2 / 5, ⟨"ITEM_VARIATION", "VUSD", ⟨⟨120, "GBP"⟩⟩⟩) ∧
    ("GBP" : String) ≠ "USD" :=
  ⟨rfl, by decide, by decide⟩

/-- C5 amended: every update payload `ApplyPriceTargets` produces carries
the constant currency `"GBP"`, whatever the variant's original currency; it
equals the original currency only when that currency is already `"GBP"`. -/
theorem C5_amended_currency (rate : ℚ) (v : ItemVariation)
    (t : ℚ × ℚ × UpdateItemVariation)
    (h : priceUpdateAtRate rate v = some t) :
    t.2.2.data.price_money.currency = "GBP" := by
  unfold priceUpdateAtRate at h
  split at h
  · cases h
  · split at h
    · cases h
    · split at h
      · cases h
      · cases h
        rfl

/-- C5 amended witness: the USD-priced variant's update carries `"GBP"`. -/
theorem C5_amended_currency_witness :
    priceUpdateAtRate (1 / 5) vUSD =
      some (7 / 25, 2 / 5, ⟨"ITEM_VARIATION", "VUSD", ⟨⟨120, "GBP"⟩⟩⟩) ∧
    (((7 : ℚ) / 25, (2 : ℚ) / 5,
      (⟨"ITEM_VARIATION", "VUSD", ⟨⟨120, "GBP"⟩⟩⟩ : UpdateItemVariation))).2.2.data.price_money.currency = "GBP" :=
  ⟨by decide, C5_amended_currency (1 / 5) vUSD _ (by decide)⟩

/-- A panicking element anywhere in the list panics the whole
`filter_map` collection. -/
theorem exceptFilterMap_error {α β : Type} (f : α → Except Unit (Option β))
    (l : List α) (a : α) (ha : a ∈ l) (hf : f a = .error ()) :
    exceptFilterMap f l = .error () := by
  induction l with
  | nil => cases ha
  | cons b bs ih =>
      rcases List.mem_cons.mp ha with h | h
      · subst h
        unfold exceptFilterMap
        rw [hf]
      · unfold exceptFilterMap
        cases hfb : f b with
        | error e =>
            cases e
            rfl
        | ok ob =>
            cases ob with
            | none => exact ih h
            | some w => rw [ih h]

/-- C8: if any eligible variant's resolved tax category is outside the fixed
enumeration (`taxRateOf` has no entry, the `_ => unreachable!()` arm), the
whole `ApplyPriceTargets` run aborts with the panic; no default rate is ever
substituted. -/
theorem C8_unknown_tax_category_aborts (taxMap : String → Option String)
    (vs : List ItemVariation) (v : ItemVariation) (cat : String)
    (hv : v ∈ eligibleList vs) (hm : taxMap v.data.item_id = some cat)
    (hc : taxRateOf cat = none) :
    applyPriceTargets taxMap vs = .error () := by
  unfold applyPriceTargets
  apply exceptFilterMap_error _ _ v hv
  simp only [variantUpdate, hm, hc]

/-- C8 witness: a run containing an eligible variant resolved to the unknown
category `"UNKNOWN"` aborts. -/
theorem C8_unknown_tax_category_aborts_witness :
    (vUSD ∈ eligibleList [vUSD] ∧ tmU vUSD.data.item_id = some "UNKNOWN" ∧
      taxRateOf "UNKNOWN" = none) ∧
    applyPriceTargets tmU [vUSD] = .error () :=
  ⟨⟨by decide, rfl, rfl⟩,
    C8_unknown_tax_category_aborts tmU [vUSD] vUSD "UNKNOWN" (by decide) rfl rfl⟩

/-- C10: a deleted variant is invisible to both commands: inserting it
anywhere into the fetched list changes neither the `ListZeroMargin` rows nor
the `ApplyPriceTargets` outcome (it is dropped by each command's
`is_deleted` filter before any further processing, so it can neither be
listed nor receive an update). -/
theorem C10_deleted_ignored (taxMap : String → Option String)
    (va vb : List ItemVariation) (v : ItemVariation) (h : v.is_deleted = true) :
    listZeroMargin (va ++ v :: vb) = listZeroMargin (va ++ vb) ∧
    applyPriceTargets taxMap (va ++ v :: vb) = applyPriceTargets taxMap (va ++ vb) := by
  have hfilter : (va ++ v :: vb).filter (fun v => !v.is_deleted)
      = (va ++ vb).filter (fun v => !v.is_deleted) := by
    simp [List.filter_append, List.filter_cons, h]
  constructor
  · unfold listZeroMargin
    rw [hfilter]
  · unfold applyPriceTargets eligibleList
    rw [hfilter]

/-- C10 witness: the deleted 50/80 variant produces no listing row and no
update. -/
theorem C10_deleted_ignored_witness :
    vDel.is_deleted = true ∧
    listZeroMargin [vDel] = listZeroMargin [] ∧
    applyPriceTargets tmNone [vDel] = applyPriceTargets tmNone [] :=
  ⟨rfl, (C10_deleted_ignored tmNone [] [] vDel rfl).1,
    (C10_deleted_ignored tmNone [] [] vDel rfl).2⟩

end Sps
